import Mathlib

/-!
Verification development for the command-language scanner/parser of the
lf file browser (`parse.go`).

The parser (`parseExpr`, `parse`), the AST variants and their `String`
renderers are translated from `parse.go`.  The scanner itself is not part
of the visible sources; its token-level interface (one-token look-ahead
cursor advanced by `scan`, sticky lexical error surfaced together with
end of input) and the lexing rules are modelled from the specification.
-/

/-- Token categories of the scanner (spec section 3; Go names `TokenEOF`,
`TokenSemicolon`, ..., the prefix-character category is called
`TokenPref` here). -/
inductive TokenType where
  | TokenEOF
  | TokenSemicolon
  | TokenIdent
  | TokenColon
  | TokenLBraces
  | TokenRBraces
  | TokenPref
  | TokenCommand
  deriving DecidableEq

open TokenType

/-- A token: a category together with its literal text. -/
structure Token where
  typ : TokenType
  tok : String
  deriving DecidableEq

/-- Modelled from the spec: the scanner's observable state.  `typ`/`tok`
are the current (look-ahead) token, `rest` the tokens still to come,
`fin` a lexical error to be surfaced when the token stream runs out
("any lexical inconsistency sets a sticky scanner error and forces
EndOfInput"), and `err` the recorded lexical error as the parser sees
it. -/
structure Scanner where
  rest : List Token
  fin : Option String
  typ : TokenType
  tok : String
  err : Option String
  deriving DecidableEq

/-- Modelled from the spec: `scan()` advances the cursor by one token and
reports whether input remains.  At the end of the stream it yields
`TokenEOF` and surfaces the sticky lexical error, and further calls keep
that state. -/
def Scanner.scan : Scanner → Scanner × Bool
  | ⟨[], fin, _, _, err⟩ =>
    (⟨[], fin, TokenEOF, "", if err.isSome then err else fin⟩, false)
  | ⟨t :: ts, fin, _, _, err⟩ => (⟨ts, fin, t.typ, t.tok, err⟩, true)

/-- Modelled from the spec: whitespace is insignificant outside
identifier and command-text runs. -/
def isWs (c : Char) : Bool :=
  c = ' ' || c = '\t' || c = '\n' || c = '\r'

/-- Modelled from the spec: blanks separating a prefix character from the
text that follows it on the same line. -/
def isBlank (c : Char) : Bool :=
  c = ' ' || c = '\t'

/-- Modelled from the spec: an identifier is a maximal run of
non-whitespace, non-structural characters; a semicolon always ends such
a run (the spec's own examples make a colon inside a word, as in
`1:2:3`, part of the identifier). -/
def isIdentChar (c : Char) : Bool :=
  !isWs c && c ≠ ';'

/-- The five prefix characters of the grammar. -/
def prefChars : List Char := ['$', '!', '&', '/', '?']

/-- Modelled from the spec: split a brace-delimited command body at the
first `\x7d\x7d`, with no nested-brace interpretation; `none` when the
closing braces are missing. -/
def splitBraces : List Char → Option (List Char × List Char)
  | '\x7d' :: '\x7d' :: rest => some ([], rest)
  | c :: rest => (splitBraces rest).map (fun ab => (c :: ab.1, ab.2))
  | [] => none

/-- Modelled from the spec: split raw command text at the first
unescaped newline; `none` when the input ends first. -/
def splitNL : List Char → Option (List Char × List Char)
  | '\\' :: '\n' :: rest => (splitNL rest).map (fun ab => ('\\' :: '\n' :: ab.1, ab.2))
  | '\n' :: rest => some ([], rest)
  | c :: rest => (splitNL rest).map (fun ab => (c :: ab.1, ab.2))
  | [] => none

/-- Modelled from the spec: lexing immediately after a prefix character.
Either a `\x7b\x7b ... \x7d\x7d` block whose verbatim interior is one
command-text token, or raw text up to an unescaped newline yielding one
command-text token plus a synthetic newline token.  An unterminated
block or unterminated raw text is a lexical error that forces end of
input.  Returns the produced tokens, the lexical error if any, and the
characters still to lex. -/
def scanAfterPref (pc : Char) (cs : List Char) : List Token × Option String × List Char :=
  let cs1 := cs.dropWhile isBlank
  match cs1 with
  | '\x7b' :: '\x7b' :: rest =>
    match splitBraces rest with
    | some ab =>
      ([⟨TokenPref, String.mk [pc]⟩, ⟨TokenLBraces, "\x7b\x7b"⟩,
        ⟨TokenCommand, String.mk ab.1⟩, ⟨TokenRBraces, "\x7d\x7d"⟩], none, ab.2)
    | none => ([⟨TokenPref, String.mk [pc]⟩, ⟨TokenLBraces, "\x7b\x7b"⟩],
        some "unclosed braces", [])
  | _ =>
    match splitNL cs1 with
    | some ab =>
      ([⟨TokenPref, String.mk [pc]⟩, ⟨TokenCommand, String.mk ab.1⟩,
        ⟨TokenSemicolon, "\n"⟩], none, ab.2)
    | none => ([⟨TokenPref, String.mk [pc]⟩], some "unterminated command", [])

/-- Modelled from the spec: the lexing rules of section 4.1, producing
the token stream and the sticky lexical error, if any.  The fuel is an
embedding artifact; every step consumes at least one character, so
`length + 1` fuel never runs out. -/
def scanToks : Nat → List Char → List Token × Option String
  | 0, _ => ([], some "out of fuel")
  | _, [] => ([], none)
  | f + 1, c :: cs =>
    if isWs c then scanToks f cs
    else if c = ';' then
      let r := scanToks f cs
      (⟨TokenSemicolon, ";"⟩ :: r.1, r.2)
    else if c = '\x7b' ∧ cs.head? = some '\x7b' then
      let r := scanToks f cs.tail
      (⟨TokenLBraces, "\x7b\x7b"⟩ :: r.1, r.2)
    else if c = '\x7d' ∧ cs.head? = some '\x7d' then
      let r := scanToks f cs.tail
      (⟨TokenRBraces, "\x7d\x7d"⟩ :: r.1, r.2)
    else if c = ':' then
      let r := scanToks f cs
      (⟨TokenColon, ":"⟩ :: r.1, r.2)
    else if prefChars.contains c then
      let r := scanAfterPref c cs
      match r.2.1 with
      | some e => (r.1, some e)
      | none =>
        let k := scanToks f r.2.2
        (r.1 ++ k.1, k.2)
    else
      let run := (c :: cs).takeWhile isIdentChar
      let r := scanToks f ((c :: cs).dropWhile isIdentChar)
      (⟨TokenIdent, String.mk run⟩ :: r.1, r.2)

/-- Modelled from the spec: tokenize a whole input text. -/
def tokenize (s : String) : List Token × Option String :=
  scanToks (s.data.length + 1) s.data

/-- The AST of `parse.go`: a closed sum of six variants.  The bodies of
`MapExpr` and `CmdExpr` are Go interface values that may be nil, hence
`Option Expr`. -/
inductive Expr where
  | SetExpr (opt val : String)
  | MapExpr (keys : String) (expr : Option Expr)
  | CmdExpr (name : String) (expr : Option Expr)
  | CallExpr (name : String) (args : List String)
  | ExecExpr (pref expr : String)
  | ListExpr (exprs : List Expr)

/-- Go's `%s` rendering of a `[]string` value: bracketed, space
separated, `[]` for nil. -/
def goArgsFmt : List String → String
  | [] => ""
  | [a] => a
  | a :: rest => a ++ " " ++ goArgsFmt rest

mutual

/-- The `String()` methods of the six variants, from `parse.go`.  A nil
interface value renders as Go's `<nil>`. -/
def ExprString : Expr → String
  | Expr.SetExpr opt val => "set " ++ opt ++ " " ++ val
  | Expr.MapExpr keys e => "map " ++ keys ++ " " ++ OptExprString e
  | Expr.CmdExpr name e => "cmd " ++ name ++ " " ++ OptExprString e
  | Expr.CallExpr name args => name ++ " -- [" ++ goArgsFmt args ++ "]"
  | Expr.ExecExpr pref ex => pref ++ " " ++ ex
  | Expr.ListExpr exprs => ListExprString exprs ":\x7b\x7b " ++ "\x7d\x7d"

/-- Renders a possibly-nil body expression. -/
def OptExprString : Option Expr → String
  | none => "<nil>"
  | some e => ExprString e

/-- The byte-buffer loop of `ListExpr.String`: append each element's
rendering followed by `"; "` to the buffer. -/
def ListExprString : List Expr → String → String
  | [], buf => buf
  | e :: es, buf => ListExprString es (buf ++ ExprString e ++ "; ")

end

/-- The parser state of `parse.go`: the scanner plus the sticky parse
error (`Parser.err`); the retained result of `parse()` is returned
explicitly instead of being stored. -/
structure Parser where
  s : Scanner
  err : Option String
  deriving DecidableEq

/-- The argument-collecting loop of the call production
(`for s.scan() && s.typ != TokenSemicolon`), with `scan` inlined as
structural recursion over the remaining tokens: pop tokens and collect
their text until a semicolon token is popped or the input ends. -/
def callLoopAux (fin err0 : Option String) :
    List Token → List String → List String × Scanner
  | [], args =>
    (args, ⟨[], fin, TokenEOF, "", if err0.isSome then err0 else fin⟩)
  | t :: ts, args =>
    if t.typ = TokenSemicolon then (args, ⟨ts, fin, t.typ, t.tok, err0⟩)
    else callLoopAux fin err0 ts (args ++ [t.tok])

/-- The call-production loop, started from a scanner state. -/
def callLoop (s : Scanner) (args : List String) : List String × Scanner :=
  callLoopAux s.fin s.err s.rest args

/-- The brace-form list loop of `parseExpr` (lines 176-185): repeatedly
parse a sub-expression, fail hard on a null sub-result, append, and stop
once the current token is `\x7d\x7d`.  `rec` is the enclosing
`parseExpr`; the fuel is an embedding artifact bounding the iteration
count. -/
def parseListBr (rec : Parser → Option Expr × Parser) :
    Nat → Parser → List Expr → Option (List Expr) × Parser
  | 0, p, _ => (none, p)
  | n + 1, p, acc =>
    let ep := rec p
    match ep.1 with
    | none => (none, ep.2)
    | some e =>
      if ep.2.s.typ = TokenRBraces then (some (acc ++ [e]), ep.2)
      else parseListBr rec n ep.2 (acc ++ [e])

/-- The line-form list loop of `parseExpr` (lines 188-197): as the brace
form, but stopping once the current token text is a newline. -/
def parseListNL (rec : Parser → Option Expr × Parser) :
    Nat → Parser → List Expr → Option (List Expr) × Parser
  | 0, p, _ => (none, p)
  | n + 1, p, acc =>
    let ep := rec p
    match ep.1 with
    | none => (none, ep.2)
    | some e =>
      if ep.2.s.tok = "\n" then (some (acc ++ [e]), ep.2)
      else parseListNL rec n ep.2 (acc ++ [e])

/-- `Parser.parseExpr` from `parse.go`, fuel-indexed (the fuel is an
embedding artifact: one unit per recursive call, so any fuel above the
recursion depth gives the Go behavior).  Dispatches on the current token
category and, for identifiers, on the keyword text.  Returns the parsed
expression (or `none`) together with the updated parser. -/
def parseExpr : Nat → Parser → Option Expr × Parser
  | 0, p => (none, p)
  | fuel + 1, p =>
    match p.s.typ with
    | TokenEOF => (none, p)
    | TokenSemicolon => (none, { p with s := (Scanner.scan p.s).1 })
    | TokenIdent =>
      if p.s.tok = "set" then
        let s1 := (Scanner.scan p.s).1
        let opt := s1.tok
        let s2 := (Scanner.scan s1).1
        if s2.typ ≠ TokenSemicolon then
          let val := s2.tok
          let s3 := (Scanner.scan s2).1
          let s4 := (Scanner.scan s3).1
          (some (Expr.SetExpr opt val), { p with s := s4 })
        else
          let s4 := (Scanner.scan s2).1
          (some (Expr.SetExpr opt ""), { p with s := s4 })
      else if p.s.tok = "map" then
        let s1 := (Scanner.scan p.s).1
        let keys := s1.tok
        let s2 := (Scanner.scan s1).1
        let ep := parseExpr fuel { p with s := s2 }
        (some (Expr.MapExpr keys ep.1), ep.2)
      else if p.s.tok = "cmd" then
        let s1 := (Scanner.scan p.s).1
        let name := s1.tok
        let s2 := (Scanner.scan s1).1
        let ep := parseExpr fuel { p with s := s2 }
        (some (Expr.CmdExpr name ep.1), ep.2)
      else
        let name := p.s.tok
        let as := callLoop p.s []
        let s2 := (Scanner.scan as.2).1
        match s2.err with
        | some m => (none, { s := s2, err := some ("parsing: " ++ m) })
        | none => (some (Expr.CallExpr name as.1), { p with s := s2 })
    | TokenColon =>
      let s1 := (Scanner.scan p.s).1
      if s1.typ = TokenLBraces then
        let s2 := (Scanner.scan s1).1
        let lr := parseListBr (parseExpr fuel) fuel { p with s := s2 } []
        match lr.1 with
        | none => (none, lr.2)
        | some exprs =>
          let s3 := (Scanner.scan lr.2.s).1
          let s4 := (Scanner.scan s3).1
          (some (Expr.ListExpr exprs), { lr.2 with s := s4 })
      else
        let lr := parseListNL (parseExpr fuel) fuel { p with s := s1 } []
        match lr.1 with
        | none => (none, lr.2)
        | some exprs =>
          let s3 := (Scanner.scan lr.2.s).1
          (some (Expr.ListExpr exprs), { lr.2 with s := s3 })
    | TokenPref =>
      let pref := p.s.tok
      let s1 := (Scanner.scan p.s).1
      let es2 : String × Scanner :=
        if s1.typ = TokenLBraces then
          let sa := (Scanner.scan s1).1
          (sa.tok, (Scanner.scan sa).1)
        else if s1.typ = TokenCommand then
          (s1.tok, s1)
        else
          ("", s1)
      let s3 := (Scanner.scan es2.2).1
      let s4 := (Scanner.scan s3).1
      match s4.err with
      | some m => (none, { s := s4, err := some ("parsing: " ++ m) })
      | none => (some (Expr.ExecExpr pref es2.1), { p with s := s4 })
    | TokenLBraces => (none, p)
    | TokenRBraces => (none, p)
    | TokenCommand => (none, p)

/-- `newParser`: build the scanner and advance it once so that the first
token is current. -/
def newParser (toks : List Token) (fin : Option String) : Parser :=
  { s := (Scanner.scan ⟨toks, fin, TokenEOF, "", none⟩).1, err := none }

/-- `Parser.parse`: one-shot entry point.  Returns whether an expression
was produced, the expression itself, and the final parser state. -/
def parse (fuel : Nat) (p : Parser) : Bool × Option Expr × Parser :=
  let r := parseExpr fuel p
  (r.1.isSome, r.1, r.2)

/-- Parser state for a textual input, via the spec-modelled tokenizer. -/
def stringParser (str : String) : Parser :=
  newParser (tokenize str).1 (tokenize str).2

/-- Ample fuel for a textual input: each recursive `parseExpr` call and
each list-loop iteration consumes at least one token. -/
def stringFuel (str : String) : Nat :=
  2 * (tokenize str).1.length + 2

/-- End-to-end run on a textual input. -/
def parseString (str : String) : Bool × Option Expr × Parser :=
  parse (stringFuel str) (stringParser str)

/-- Concatenation of a list of strings, used to state the shape of the
canonical list rendering. -/
def specJoin : List String → String
  | [] => ""
  | s :: rest => s ++ specJoin rest

/-- The buffer loop of `ListExpr.String` appends exactly the rendering
of each element followed by `"; "` after the initial buffer. -/
theorem ListExprString_eq (es : List Expr) :
    ∀ buf : String,
      ListExprString es buf = buf ++ specJoin (es.map (fun e => ExprString e ++ "; ")) := by
  induction es with
  | nil => intro buf; simp [ListExprString, specJoin, String.append_empty]
  | cons e es ih =>
    intro buf
    simp only [ListExprString, List.map_cons, specJoin, ih, String.append_assoc]

/-- The call-production loop collects the text of every token before the
first semicolon token, in order, and leaves the scanner on that
semicolon. -/
theorem callLoopAux_collect (fin : Option String) (sv : String) (r2 : List Token)
    (args : List Token) :
    ∀ acc : List String, (∀ a ∈ args, a.typ ≠ TokenSemicolon) →
      callLoopAux fin none (args ++ ⟨TokenSemicolon, sv⟩ :: r2) acc
        = (acc ++ args.map Token.tok, ⟨r2, fin, TokenSemicolon, sv, none⟩) := by
  induction args with
  | nil => intro acc _; simp [callLoopAux]
  | cons a as ih =>
    intro acc h
    have ha : a.typ ≠ TokenSemicolon := h a (List.mem_cons_self a as)
    simp only [List.cons_append, callLoopAux, if_neg ha, List.append_eq]
    rw [ih (acc ++ [a.tok]) (fun x hx => h x (List.mem_cons_of_mem a hx))]
    simp

/-- A successful run of the brace-form list loop extends the accumulator
by at least one parsed element, in order. -/
theorem parseListBr_shape (rec : Parser → Option Expr × Parser) :
    ∀ (n : Nat) (p : Parser) (acc l : List Expr) (p' : Parser),
      parseListBr rec n p acc = (some l, p') → ∃ e es, l = acc ++ e :: es := by
  intro n
  induction n with
  | zero =>
    intro p acc l p' h
    simp [parseListBr] at h
  | succ n ih =>
    intro p acc l p' h
    simp only [parseListBr] at h
    split at h
    · simp at h
    · split at h
      · rw [Prod.mk.injEq] at h
        obtain ⟨h1, -⟩ := h
        exact ⟨_, [], by simpa using h1.symm⟩
      · obtain ⟨e', es', hl⟩ := ih _ _ _ _ h
        exact ⟨_, e' :: es', by simpa [List.append_assoc] using hl⟩

/-- C1: the claimed invariant fails on the code.  For the truncated
input `map gg` (end of input before the nested body), `parseExpr()`
builds `MapExpr` without checking the recursive result, so a node with a
missing (nil) sub-expression escapes, `parse()` returns true, and no
error is recorded — both at string level and directly at token level. -/
theorem lf_c1_map_nil_body :
    (parseString "map gg").1 = true ∧
    (parseString "map gg").2.1 = some (Expr.MapExpr "gg" none) ∧
    (parseString "map gg").2.2.err = none ∧
    parseExpr 2 ⟨⟨[⟨TokenIdent, "gg"⟩], none, TokenIdent, "map", none⟩, none⟩
      = (some (Expr.MapExpr "gg" none), ⟨⟨[], none, TokenEOF, "", none⟩, none⟩) :=
  ⟨rfl, rfl, rfl, rfl⟩

/-- C3: the claim fails on the code.  For a current token of category
LeftBrace, RightBrace or CommandText — the categories outside
EndOfInput/Semicolon/Identifier/Colon/Prefix — `parseExpr()` hits the
`default: // TODO: handle error` arm and returns null with the parser
completely unchanged: no syntax error is recorded.  Concretely, parsing
`:\x7b\x7b \x7d\x7d;` reaches `parseExpr()` on a RightBrace, and
`parse()` returns false with the error field still nil. -/
theorem lf_c3_unhandled_token_silent :
    (∀ (fuel : Nat) (rest : List Token) (fin : Option String) (tok : String)
        (err perr : Option String),
      parseExpr (fuel + 1) ⟨⟨rest, fin, TokenLBraces, tok, err⟩, perr⟩
        = (none, ⟨⟨rest, fin, TokenLBraces, tok, err⟩, perr⟩)) ∧
    (∀ (fuel : Nat) (rest : List Token) (fin : Option String) (tok : String)
        (err perr : Option String),
      parseExpr (fuel + 1) ⟨⟨rest, fin, TokenRBraces, tok, err⟩, perr⟩
        = (none, ⟨⟨rest, fin, TokenRBraces, tok, err⟩, perr⟩)) ∧
    (∀ (fuel : Nat) (rest : List Token) (fin : Option String) (tok : String)
        (err perr : Option String),
      parseExpr (fuel + 1) ⟨⟨rest, fin, TokenCommand, tok, err⟩, perr⟩
        = (none, ⟨⟨rest, fin, TokenCommand, tok, err⟩, perr⟩)) ∧
    (parseString ":\x7b\x7b \x7d\x7d;").1 = false ∧
    (parseString ":\x7b\x7b \x7d\x7d;").2.2.err = none :=
  ⟨fun _ _ _ _ _ _ => rfl, fun _ _ _ _ _ _ => rfl, fun _ _ _ _ _ _ => rfl, rfl, rfl⟩

/-- C4 counterexample: on a Semicolon the Go `switch` arm only consumes
the token and falls out of the switch with a nil result — it does not
recurse.  Parsing `;set nohidden;` therefore yields null, although the
statement after the semicolon parses on its own. -/
theorem lf_c4_semicolon_cex :
    (parseString ";set nohidden;").2.1 = none ∧
    (parseString "set nohidden;").2.1 = some (Expr.SetExpr "nohidden" "") :=
  ⟨rfl, rfl⟩

/-- C4 (amended): when the current token is a Semicolon, `parseExpr()`
consumes it and returns null without recursing, leaving the error field
untouched; the statement following the separator is not parsed by this
call. -/
theorem lf_c4_semicolon_no_recurse :
    (∀ (fuel : Nat) (rest : List Token) (fin : Option String) (tok : String)
        (err perr : Option String),
      parseExpr (fuel + 1) ⟨⟨rest, fin, TokenSemicolon, tok, err⟩, perr⟩
        = (none, ⟨(Scanner.scan ⟨rest, fin, TokenSemicolon, tok, err⟩).1, perr⟩)) ∧
    (parseString ";set nohidden;").2.1 = none :=
  ⟨fun _ _ _ _ _ _ => rfl, rfl⟩

/-- C9: a `cmd` statement with a line-form exec body parses to a
`CmdExpr` holding an `ExecExpr` with the remembered prefix character and
the raw command text — at token level for any name/prefix/text, and for
the concrete input `cmd usage $du -sh .|less\n`. -/
theorem lf_c9_cmd_line_exec :
    (∀ (fuel : Nat) (nmT : Token) (pr tx : String) (nlT : Token) (perr : Option String),
      parseExpr (fuel + 2)
          ⟨⟨[nmT, ⟨TokenPref, pr⟩, ⟨TokenCommand, tx⟩, nlT], none, TokenIdent, "cmd", none⟩, perr⟩
        = (some (Expr.CmdExpr nmT.tok (some (Expr.ExecExpr pr tx))),
            ⟨⟨[], none, TokenEOF, "", none⟩, perr⟩)) ∧
    (parseString "cmd usage $du -sh .|less\n").1 = true ∧
    (parseString "cmd usage $du -sh .|less\n").2.1
      = some (Expr.CmdExpr "usage" (some (Expr.ExecExpr "$" "du -sh .|less"))) :=
  ⟨fun _ _ _ _ _ _ => rfl, rfl, rfl⟩

/-- C10: `ListExpr.String()` always produces the canonical brace form —
the initial `:\x7b\x7b `, each element's rendering followed by `"; "`,
and the closing `\x7d\x7d`; the empty list renders as `:\x7b\x7b \x7d\x7d`. -/
theorem lf_c10_list_string_canonical :
    (∀ exprs : List Expr,
      ExprString (Expr.ListExpr exprs)
        = ":\x7b\x7b " ++ specJoin (exprs.map (fun e => ExprString e ++ "; ")) ++ "\x7d\x7d") ∧
    ExprString (Expr.ListExpr []) = ":\x7b\x7b \x7d\x7d" := by
  constructor
  · intro exprs
    show ListExprString exprs ":\x7b\x7b " ++ "\x7d\x7d" = _
    rw [ListExprString_eq]
  · rfl

/-- C5: the `set` production — keyword, option name, then the next token
as the value unless it is a Semicolon (value `""` then), trailing
Semicolon consumed — produces `SetExpr` with those fields; concretely
`set nohidden;` yields option `nohidden` and empty value. -/
theorem lf_c5_set_production :
    (∀ (fuel : Nat) (oT vT semiT nT : Token) (r : List Token)
        (fin err perr : Option String),
      vT.typ ≠ TokenSemicolon → semiT.typ = TokenSemicolon →
      parseExpr (fuel + 1)
          ⟨⟨oT :: vT :: semiT :: nT :: r, fin, TokenIdent, "set", err⟩, perr⟩
        = (some (Expr.SetExpr oT.tok vT.tok), ⟨⟨r, fin, nT.typ, nT.tok, err⟩, perr⟩)) ∧
    (∀ (fuel : Nat) (oT semiT nT : Token) (r : List Token)
        (fin err perr : Option String),
      semiT.typ = TokenSemicolon →
      parseExpr (fuel + 1)
          ⟨⟨oT :: semiT :: nT :: r, fin, TokenIdent, "set", err⟩, perr⟩
        = (some (Expr.SetExpr oT.tok ""), ⟨⟨r, fin, nT.typ, nT.tok, err⟩, perr⟩)) ∧
    (parseString "set nohidden;").2.1 = some (Expr.SetExpr "nohidden" "") := by
  refine ⟨?_, ?_, rfl⟩
  · intro fuel oT vT semiT nT r fin err perr hv _
    obtain ⟨vtyp, vtok⟩ := vT
    cases vtyp
    all_goals first
      | exact absurd rfl hv
      | rfl
  · intro fuel oT semiT nT r fin err perr hs
    obtain ⟨styp, stok⟩ := semiT
    cases styp
    all_goals first
      | rfl
      | exact absurd hs (by simp)

/-- C5 witness: the general clauses applied at the tokens of
`set ratios 1:2:3;` and `set nohidden;`. -/
theorem lf_c5_set_production_witness :
    parseExpr 1 ⟨⟨[⟨TokenIdent, "ratios"⟩, ⟨TokenIdent, "1:2:3"⟩, ⟨TokenSemicolon, ";"⟩,
        ⟨TokenIdent, "x"⟩], none, TokenIdent, "set", none⟩, none⟩
      = (some (Expr.SetExpr "ratios" "1:2:3"), ⟨⟨[], none, TokenIdent, "x", none⟩, none⟩) ∧
    parseExpr 1 ⟨⟨[⟨TokenIdent, "nohidden"⟩, ⟨TokenSemicolon, ";"⟩,
        ⟨TokenIdent, "x"⟩], none, TokenIdent, "set", none⟩, none⟩
      = (some (Expr.SetExpr "nohidden" ""), ⟨⟨[], none, TokenIdent, "x", none⟩, none⟩) :=
  ⟨lf_c5_set_production.1 0 ⟨TokenIdent, "ratios"⟩ ⟨TokenIdent, "1:2:3"⟩ ⟨TokenSemicolon, ";"⟩
      ⟨TokenIdent, "x"⟩ [] none none none (by decide) rfl,
    lf_c5_set_production.2.1 0 ⟨TokenIdent, "nohidden"⟩ ⟨TokenSemicolon, ";"⟩
      ⟨TokenIdent, "x"⟩ [] none none none rfl⟩

/-- C6: a call expression collects the text of every token after the
command name, in source order, until the terminating Semicolon;
concretely `open a b c;` yields name `open` and arguments
`a`, `b`, `c` in that order. -/
theorem lf_c6_call_args_order :
    (∀ (fuel : Nat) (name : String) (args : List Token) (sv : String) (nT : Token)
        (r : List Token) (fin : Option String) (perr : Option String),
      name ≠ "set" → name ≠ "map" → name ≠ "cmd" →
      (∀ a ∈ args, a.typ ≠ TokenSemicolon) →
      parseExpr (fuel + 1)
          ⟨⟨args ++ ⟨TokenSemicolon, sv⟩ :: nT :: r, fin, TokenIdent, name, none⟩, perr⟩
        = (some (Expr.CallExpr name (args.map Token.tok)),
            ⟨⟨r, fin, nT.typ, nT.tok, none⟩, perr⟩)) ∧
    (parseString "open a b c;").2.1 = some (Expr.CallExpr "open" ["a", "b", "c"]) := by
  refine ⟨?_, rfl⟩
  intro fuel name args sv nT r fin perr h1 h2 h3 hargs
  simp only [parseExpr, if_neg h1, if_neg h2, if_neg h3]
  show (match (Scanner.scan (callLoop _ []).2).1.err with
    | some m => _
    | none => _) = _
  rw [show callLoop ⟨args ++ ⟨TokenSemicolon, sv⟩ :: nT :: r, fin, TokenIdent, name, none⟩ []
      = ([] ++ args.map Token.tok, ⟨nT :: r, fin, TokenSemicolon, sv, none⟩) from
    callLoopAux_collect fin sv (nT :: r) args [] hargs]
  simp [Scanner.scan]

/-- C6 witness: the general clause applied at the tokens of
`open a b c;`. -/
theorem lf_c6_call_args_order_witness :
    parseExpr 1 ⟨⟨[⟨TokenIdent, "a"⟩, ⟨TokenIdent, "b"⟩, ⟨TokenIdent, "c"⟩,
        ⟨TokenSemicolon, ";"⟩, ⟨TokenIdent, "x"⟩], none, TokenIdent, "open", none⟩, none⟩
      = (some (Expr.CallExpr "open" ["a", "b", "c"]),
          ⟨⟨[], none, TokenIdent, "x", none⟩, none⟩) := by
  simpa using lf_c6_call_args_order.1 0 "open"
    [⟨TokenIdent, "a"⟩, ⟨TokenIdent, "b"⟩, ⟨TokenIdent, "c"⟩] ";" ⟨TokenIdent, "x"⟩ []
    none none (by decide) (by decide) (by decide) (by decide)

/-- A successful run of the line-form list loop extends the accumulator
by at least one parsed element, in order. -/
theorem parseListNL_shape (rec : Parser → Option Expr × Parser) :
    ∀ (n : Nat) (p : Parser) (acc l : List Expr) (p' : Parser),
      parseListNL rec n p acc = (some l, p') → ∃ e es, l = acc ++ e :: es := by
  intro n
  induction n with
  | zero =>
    intro p acc l p' h
    simp [parseListNL] at h
  | succ n ih =>
    intro p acc l p' h
    simp only [parseListNL] at h
    split at h
    · simp at h
    · split at h
      · rw [Prod.mk.injEq] at h
        obtain ⟨h1, -⟩ := h
        exact ⟨_, [], by simpa using h1.symm⟩
      · obtain ⟨e', es', hl⟩ := ih _ _ _ _ h
        exact ⟨_, e' :: es', by simpa [List.append_assoc] using hl⟩

/-- C8: a successfully parsed Colon (list) form always carries a
non-empty body; a null sub-result inside the brace-form list loop makes
the whole loop return null (hard failure, no partial list); and the
concrete program `:\x7b\x7b set hidden; set preview; \x7d\x7d;` parses to the
two set statements in source order. -/
theorem lf_c8_list_nonempty_hard_fail :
    (∀ (fuel : Nat) (p : Parser) (exprs : List Expr) (p' : Parser),
      p.s.typ = TokenColon →
      parseExpr (fuel + 1) p = (some (Expr.ListExpr exprs), p') → exprs ≠ []) ∧
    (∀ (fuel n : Nat) (p : Parser) (acc : List Expr) (p1 : Parser),
      parseExpr fuel p = (none, p1) →
      parseListBr (parseExpr fuel) (n + 1) p acc = (none, p1)) ∧
    (parseString ":\x7b\x7b set hidden; set preview; \x7d\x7d;").2.1
      = some (Expr.ListExpr [Expr.SetExpr "hidden" "", Expr.SetExpr "preview" ""]) := by
  refine ⟨?_, ?_, rfl⟩
  · intro fuel p exprs p' htyp h
    obtain ⟨⟨rest, fin, typ, tok, err⟩, perr⟩ := p
    simp only at htyp
    subst htyp
    simp only [parseExpr] at h
    split at h
    · split at h
      · simp at h
      · next exprs' heq =>
        rw [Prod.mk.injEq] at h
        obtain ⟨h1, -⟩ := h
        obtain ⟨e, es, hl⟩ := parseListBr_shape _ _ _ _ _ _ (by rw [← heq])
        simp only [Option.some.injEq, Expr.ListExpr.injEq] at h1
        subst h1
        simp [hl]
    · split at h
      · simp at h
      · next exprs' heq =>
        rw [Prod.mk.injEq] at h
        obtain ⟨h1, -⟩ := h
        obtain ⟨e, es, hl⟩ := parseListNL_shape _ _ _ _ _ _ (by rw [← heq])
        simp only [Option.some.injEq, Expr.ListExpr.injEq] at h1
        subst h1
        simp [hl]
  · intro fuel n p acc p1 h
    simp [parseListBr, h]

/-- C8 witness: the non-emptiness clause applied to the successful parse
of `:\x7b\x7b set hidden; set preview; \x7d\x7d;`. -/
theorem lf_c8_list_nonempty_hard_fail_witness :
    [Expr.SetExpr "hidden" "", Expr.SetExpr "preview" ""] ≠ ([] : List Expr) :=
  lf_c8_list_nonempty_hard_fail.1 21
    (stringParser ":\x7b\x7b set hidden; set preview; \x7d\x7d;")
    [Expr.SetExpr "hidden" "", Expr.SetExpr "preview" ""]
    (parseExpr 22 (stringParser ":\x7b\x7b set hidden; set preview; \x7d\x7d;")).2
    (by rfl) (by rfl)

/-- C7: after the multi-token call and exec productions the parser
checks the scanner's recorded lexical error — a `CallExpr` or an
`ExecExpr` is only ever returned with a clean scanner error field, never
as a partial node over a lexical error; and for the unterminated exec
block `$ \x7b\x7b echo hi` the lexical error is recorded and `parse()`
returns false. -/
theorem lf_c7_lexical_error_abort :
    (∀ (fuel : Nat) (p : Parser) (n : String) (a : List String) (p' : Parser),
      parseExpr fuel p = (some (Expr.CallExpr n a), p') → p'.s.err = none) ∧
    (∀ (fuel : Nat) (p : Parser) (pr tx : String) (p' : Parser),
      parseExpr fuel p = (some (Expr.ExecExpr pr tx), p') → p'.s.err = none) ∧
    (parseString "$ \x7b\x7b echo hi").1 = false ∧
    (parseString "$ \x7b\x7b echo hi").2.2.err = some "parsing: unclosed braces" := by
  refine ⟨?_, ?_, rfl, rfl⟩
  · intro fuel p n a p' h
    cases fuel with
    | zero => simp [parseExpr] at h
    | succ fuel =>
      obtain ⟨⟨rest, fin, typ, tok, err⟩, perr⟩ := p
      cases typ
      all_goals simp only [parseExpr] at h
      case TokenEOF => simp at h
      case TokenSemicolon => simp at h
      case TokenLBraces => simp at h
      case TokenRBraces => simp at h
      case TokenCommand => simp at h
      case TokenIdent =>
        split at h
        · split at h <;> simp at h
        · split at h
          · simp at h
          · split at h
            · simp at h
            · split at h
              · simp at h
              · next heq =>
                rw [Prod.mk.injEq] at h
                obtain ⟨-, h2⟩ := h
                subst h2
                exact heq
      case TokenColon =>
        split at h <;> split at h <;> simp at h
      case TokenPref =>
        split at h <;> simp at h
  · intro fuel p pr tx p' h
    cases fuel with
    | zero => simp [parseExpr] at h
    | succ fuel =>
      obtain ⟨⟨rest, fin, typ, tok, err⟩, perr⟩ := p
      cases typ
      all_goals simp only [parseExpr] at h
      case TokenEOF => simp at h
      case TokenSemicolon => simp at h
      case TokenLBraces => simp at h
      case TokenRBraces => simp at h
      case TokenCommand => simp at h
      case TokenIdent =>
        split at h
        · split at h <;> simp at h
        · split at h
          · simp at h
          · split at h
            · simp at h
            · split at h <;> simp at h
      case TokenColon =>
        split at h <;> split at h <;> simp at h
      case TokenPref =>
        split at h
        · simp at h
        · next heq =>
          rw [Prod.mk.injEq] at h
          obtain ⟨-, h2⟩ := h
          subst h2
          exact heq

/-- C7 witness: the two guard clauses applied to a concrete call
expression and a concrete line-form exec expression. -/
theorem lf_c7_lexical_error_abort_witness :
    (parseExpr 1 ⟨⟨[⟨TokenSemicolon, ";"⟩, ⟨TokenIdent, "x"⟩], none,
        TokenIdent, "quit", none⟩, none⟩).2.s.err = none ∧
    (parseExpr 1 ⟨⟨[⟨TokenCommand, "ls"⟩, ⟨TokenSemicolon, "\n"⟩], none,
        TokenPref, "$", none⟩, none⟩).2.s.err = none :=
  ⟨lf_c7_lexical_error_abort.1 1
      ⟨⟨[⟨TokenSemicolon, ";"⟩, ⟨TokenIdent, "x"⟩], none, TokenIdent, "quit", none⟩, none⟩
      "quit" []
      (parseExpr 1 ⟨⟨[⟨TokenSemicolon, ";"⟩, ⟨TokenIdent, "x"⟩], none,
        TokenIdent, "quit", none⟩, none⟩).2 (by rfl),
    lf_c7_lexical_error_abort.2.1 1
      ⟨⟨[⟨TokenCommand, "ls"⟩, ⟨TokenSemicolon, "\n"⟩], none, TokenPref, "$", none⟩, none⟩
      "$" "ls"
      (parseExpr 1 ⟨⟨[⟨TokenCommand, "ls"⟩, ⟨TokenSemicolon, "\n"⟩], none,
        TokenPref, "$", none⟩, none⟩).2 (by rfl)⟩

/-- C2 counterexample: both halves of the round-trip claim fail on
concrete grammar-valid inputs.  `parse()` does not even succeed on every
input matching the published grammar: the zero-element brace list
`:\x7b\x7b \x7d\x7d;` (grammar `ListExpr = ':' '\x7b\x7b' Expr* '\x7d\x7d' ';'`
admits zero elements) is rejected.  And `open a b c;` parses
successfully, but its `String()` rendering (`open -- [a b c]`, Go's
debug formatting of the argument slice) re-parses to a structurally
different AST. -/
theorem lf_c2_roundtrip_cex :
    (parseString ":\x7b\x7b \x7d\x7d;").1 = false ∧
    (parseString "open a b c;").1 = true ∧
    (parseString "open a b c;").2.1 = some (Expr.CallExpr "open" ["a", "b", "c"]) ∧
    (parseString (ExprString (Expr.CallExpr "open" ["a", "b", "c"]))).2.1
      ≠ some (Expr.CallExpr "open" ["a", "b", "c"]) := by
  refine ⟨rfl, rfl, rfl, ?_⟩
  intro hc
  rw [show ExprString (Expr.CallExpr "open" ["a", "b", "c"]) = "open -- [a b c]" from rfl] at hc
  rw [show (parseString "open -- [a b c]").2.1
      = some (Expr.CallExpr "open" ["--", "[a", "b", "c]"]) from rfl] at hc
  simp at hc

/-- C2 (amended): neither half of the round-trip property is universal.
`parse()` rejects the grammar-valid zero-element list
`:\x7b\x7b \x7d\x7d;`; and `String()` is a diagnostic rendering, not a
canonical one, whose output need not re-parse to an equal AST:
`open a b c;` parses to `CallExpr{open, [a, b, c]}` but its rendering
`open -- [a b c]` re-parses to `CallExpr{open, [--, [a, b, c]]}`.  A
value-less `set` statement does survive the round trip. -/
theorem lf_c2_stringify_diagnostic :
    (parseString ":\x7b\x7b \x7d\x7d;").1 = false ∧
    (parseString "open a b c;").2.1 = some (Expr.CallExpr "open" ["a", "b", "c"]) ∧
    ExprString (Expr.CallExpr "open" ["a", "b", "c"]) = "open -- [a b c]" ∧
    (parseString "open -- [a b c]").2.1
      = some (Expr.CallExpr "open" ["--", "[a", "b", "c]"]) ∧
    ["--", "[a", "b", "c]"] ≠ ["a", "b", "c"] ∧
    (parseString "set nohidden;").2.1 = some (Expr.SetExpr "nohidden" "") ∧
    ExprString (Expr.SetExpr "nohidden" "") = "set nohidden " ∧
    (parseString "set nohidden ").2.1 = some (Expr.SetExpr "nohidden" "") :=
  ⟨rfl, rfl, rfl, rfl, by decide, rfl, rfl, rfl⟩
